import Mathlib

/-!
Shallow embedding of the SRF codec: the encoder of `png2srf.py` (class
`Png2Srf`) and the decoder of `srf2png.py` (class `Srf2Png`).  Bytes are
natural numbers; every masking or wrap-around of the Python source is kept
as an explicit bitwise operation.  The external image collaborator (PIL) is
abstracted as pixel-access functions, exactly the data the source reads
from it.
-/

namespace Srf

/-- `Png2Srf._encode_color`: 24-bit packed colour to the 16-bit wire word.
Mirrors `r = (color & 0xff0000) >> 19; g = (color & 0x00ff00) >> 11;
b = (color & 0x0000ff) >> 3; return (r << 11) | (g << 5) | b`. -/
def encode_color (color : Nat) : Nat :=
  let r := (color &&& 0xff0000) >>> 19
  let g := (color &&& 0x00ff00) >>> 11
  let b := (color &&& 0x0000ff) >>> 3
  (r <<< 11) ||| (g <<< 5) ||| b

/-- `Png2Srf._encode_alpha`: `a = (255 - (alpha & 255)) >> 1;
if a == 127: return 128; return a`. -/
def encode_alpha (alpha : Nat) : Nat :=
  let a := (255 - (alpha &&& 255)) >>> 1
  if a = 127 then 128 else a

/-- `Srf2Png._decode_color`: two little-endian bytes to an (r, g, b) triple.
Mirrors `v = (b2 << 8) + b1` and the three field extractions. -/
def decode_color (b1 b2 : Nat) : Nat × Nat × Nat :=
  let v := (b2 <<< 8) + b1
  let r := ((v &&& 0xf800) >>> 11) <<< 3
  let g := ((v &&& 0x07e0) >>> 5) <<< 2
  let b := (v &&& 0x001f) <<< 3
  (r, g, b)

/-- `Srf2Png._decode_alpha`: `a = (b & 0xff) << 1; if a >= 254: a = 255;
return 255 - a`. -/
def decode_alpha (b : Nat) : Nat :=
  let a := (b &&& 0xff) <<< 1
  let a' := if 254 ≤ a then 255 else a
  255 - a'

/-- The 24-bit packed colour the encoder builds from a pixel tuple in
`_write_image_section`: `color = (pixel[0] << 16) | (pixel[1] << 8) | pixel[2]`. -/
def pack_rgb (r g b : Nat) : Nat :=
  (r <<< 16) ||| (g <<< 8) ||| b

/-- The two little-endian bytes `_write_int16` emits for a 16-bit value. -/
def le16 (v : Nat) : List Nat :=
  [v &&& 255, (v >>> 8) &&& 255]

/-- The colour round trip exactly as the files compose it: encode a pixel,
write the word little-endian, decode the two bytes. -/
def color_roundtrip (r g b : Nat) : Nat × Nat × Nat :=
  let w := encode_color (pack_rgb r g b)
  decode_color (w &&& 255) ((w >>> 8) &&& 255)

/-- Encoder state: the bytes written to the file so far and the running
`self.checksum` counter of `Png2Srf`. -/
structure EncState where
  out : List Nat
  checksum : Nat
  deriving DecidableEq, Repr

/-- `srf_file.write(bytes([b])); self.checksum += b` for one byte. -/
def emit (s : EncState) (b : Nat) : EncState :=
  ⟨s.out ++ [b], s.checksum + b⟩

/-- A write without a checksum update (`srf_file.write` alone). -/
def writeRaw (s : EncState) (bs : List Nat) : EncState :=
  ⟨s.out ++ bs, s.checksum⟩

/-- `Png2Srf._add_bytes_to_checksum`: `for byte in byte_data: self.checksum += byte`. -/
def add_bytes_to_checksum : EncState → List Nat → EncState
  | s, [] => s
  | s, b :: rest => add_bytes_to_checksum ⟨s.out, s.checksum + b⟩ rest

/-- The little-endian byte loop shared by `_write_int32` (4 rounds) and
`_write_int16` (2 rounds): `byte = value & 255; write; checksum += byte;
value >>= 8`. -/
def write_bytes_le : EncState → Nat → Nat → EncState
  | s, 0, _ => s
  | s, k + 1, v => write_bytes_le (emit s (v &&& 255)) k (v >>> 8)

/-- `Png2Srf._write_int32`. -/
def write_int32 (s : EncState) (v : Nat) : EncState :=
  write_bytes_le s 4 v

/-- `Png2Srf._write_int16`. -/
def write_int16 (s : EncState) (v : Nat) : EncState :=
  write_bytes_le s 2 v

/-- ASCII bytes of a string constant. -/
def strBytes (t : String) : List Nat :=
  t.toList.map Char.toNat

/-- `Png2Srf._write_p_string`: u32 length, raw ASCII payload, both written
and accumulated. -/
def write_p_string (s : EncState) (t : String) : EncState :=
  let s1 := write_int32 s t.length
  add_bytes_to_checksum (writeRaw s1 (strBytes t)) (strBytes t)

/-- The 16 magic bytes `b"GARMIN BITMAP 01"`. -/
def file_id : List Nat := strBytes "GARMIN BITMAP 01"

/-- `Png2Srf._write_srf_header`: magic, two constant markers, the section
count, and the three tagged length-prefixed strings. -/
def write_srf_header (s : EncState) (sectionCount : Nat) : EncState :=
  let s := add_bytes_to_checksum (writeRaw s file_id) file_id
  let s := write_int32 s 4
  let s := write_int32 s 4
  let s := write_int32 s sectionCount
  let s := write_int32 s 5
  let s := write_p_string s "578"
  let s := write_int32 s 6
  let s := write_p_string s "1.00"
  let s := write_int32 s 7
  write_p_string s "006-D0578-XX"

/-- A pixel tuple as PIL hands it over: 3 channels (RGB) or 4 (RGBA). -/
abbrev Pixel := List Nat

/-- The alpha value `_write_image_section` reads for a pixel: from the mask
image's first channel when a mask is loaded, otherwise the RGBA tuple's
fourth channel, otherwise 255. -/
def source_alpha (mask : Option (Nat → Nat → Nat)) (img : Nat → Nat → Pixel)
    (x y : Nat) : Nat :=
  match mask with
  | some m => m x y
  | none =>
    match img x y with
    | _ :: _ :: _ :: a :: _ => a
    | _ => 255

/-- The 24-bit colour `_write_image_section` packs from an RGB(A) tuple;
tuples with fewer than 3 channels yield 0. -/
def source_color (img : Nat → Nat → Pixel) (x y : Nat) : Nat :=
  match img x y with
  | p0 :: p1 :: p2 :: _ => pack_rgb p0 p1 p2
  | _ => 0

/-- The first eight writes of `_write_image_section`: the per-section
header fields (three u32 constants 0, 16, 0; height and width as u16;
the u16 constant 2064; the u16 stride `w*2`; a final u32 0). -/
def write_section_header (s : EncState) (w h : Nat) : EncState :=
  let s := write_int32 s 0
  let s := write_int32 s 16
  let s := write_int32 s 0
  let s := write_int16 s h
  let s := write_int16 s w
  let s := write_int16 s 2064
  let s := write_int16 s (w * 2)
  write_int32 s 0

/-- The alpha row-major double loop of `_write_image_section`. -/
def write_alpha_plane (s : EncState) (mask : Option (Nat → Nat → Nat))
    (img : Nat → Nat → Pixel) (w h y_base : Nat) : EncState :=
  (List.range h).foldl
    (fun s y =>
      (List.range w).foldl
        (fun s x => emit s (encode_alpha (source_alpha mask img x (y + y_base))))
        s)
    s

/-- The colour row-major double loop of `_write_image_section`. -/
def write_color_plane (s : EncState) (img : Nat → Nat → Pixel)
    (w h y_base : Nat) : EncState :=
  (List.range h).foldl
    (fun s y =>
      (List.range w).foldl
        (fun s x => write_int16 s (encode_color (source_color img x (y + y_base))))
        s)
    s

/-- `Png2Srf._write_image_section`: section header, alpha block (tag 11,
length `w*h`, plane), colour block (tag 1, length `w*h*2`, plane). -/
def write_image_section (s : EncState) (mask : Option (Nat → Nat → Nat))
    (img : Nat → Nat → Pixel) (w h y_base : Nat) : EncState :=
  let s := write_section_header s w h
  let s := write_int32 s 11
  let s := write_int32 s (w * h)
  let s := write_alpha_plane s mask img w h y_base
  let s := write_int32 s 1
  let s := write_int32 s (w * h * 2)
  write_color_plane s img w h y_base

/-- The per-section loop of `_write_srf_file`, threading the running
vertical offset `cur_y_pos`. -/
def write_sections (mask : Option (Nat → Nat → Nat)) (img : Nat → Nat → Pixel) :
    EncState → List (Nat × Nat) → Nat → EncState
  | s, [], _ => s
  | s, (w, h) :: rest, y => write_sections mask img (write_image_section s mask img w h y) rest (y + h)

/-- The `0xff` padding loop of `_write_srf_footer`. -/
def write_padding : EncState → Nat → EncState
  | s, 0 => s
  | s, n + 1 => write_padding (emit s 0xff) n

/-- `Png2Srf._write_srf_footer`: pad with 0xff until `tell() % 256 == 255`,
then write the checkbyte `(256 - (checksum & 255)) & 255` without
accumulating it. -/
def write_srf_footer (s : EncState) : EncState :=
  let bytes_written := s.out.length
  let s := write_padding s (255 - bytes_written % 256)
  let checkbyte := (256 - (s.checksum &&& 255)) &&& 255
  writeRaw s [checkbyte]

/-- The stream body `_write_srf_file` produces before the footer: header
followed by every section. -/
def write_srf_body (sections : List (Nat × Nat)) (mask : Option (Nat → Nat → Nat))
    (img : Nat → Nat → Pixel) : EncState :=
  write_sections mask img (write_srf_header ⟨[], 0⟩ sections.length) sections 0

/-- `Png2Srf._write_srf_file`: the complete emitted byte stream. -/
def write_srf_file (sections : List (Nat × Nat)) (mask : Option (Nat → Nat → Nat))
    (img : Nat → Nat → Pixel) : List Nat :=
  (write_srf_footer (write_srf_body sections mask img)).out

/-- `Png2Srf._validate_sections`, over the converter state
`(section_count, section_widths, section_heights)`.  `some b` is the
function's return value; `none` is a raised exception (an out-of-range
index into the fixed 10-element arrays). -/
def validate_loop (widths heights : List Nat) : Nat → Nat → Option Bool
  | _, 0 => some true
  | i, n + 1 =>
    match heights.get? i, widths.get? i with
    | some h, some w =>
      if h = 0 ∨ w = 0 then some false else validate_loop widths heights (i + 1) n
    | _, _ => none

/-- `Png2Srf._validate_sections`: reject a zero section count, then scan the
first `count` entries of the dimension arrays for zeroes. -/
def validate_sections (count : Nat) (widths heights : List Nat) : Option Bool :=
  if count = 0 then some false else validate_loop widths heights 0 count

/- ---------------------------------------------------------------------
Decoder (`srf2png.py`, class `Srf2Png`).  The stream is a byte list read
through an explicit cursor; `none` is any failure (`struct.unpack` on short
data, a bad magic, or the section-count check).  `seek(n, 1)` is cursor
arithmetic and never fails, as in Python.
--------------------------------------------------------------------- -/

/-- `srf_file.read(n)` followed by a length check: the slice and the new
cursor, or `none` when fewer than `n` bytes remain (the paths where the
source would raise while unpacking or indexing the short buffer). -/
def readBytes (data : List Nat) (pos n : Nat) : Option (List Nat × Nat) :=
  if pos + n ≤ data.length then some ((data.drop pos).take n, pos + n) else none

/-- `Srf2Png._read_int16`: `struct.unpack('<H', read(2))`. -/
def read_int16 (data : List Nat) (pos : Nat) : Option (Nat × Nat) :=
  match readBytes data pos 2 with
  | some ([b0, b1], p) => some (b0 + 256 * b1, p)
  | _ => none

/-- `Srf2Png._read_int32`: `struct.unpack('<I', read(4))`. -/
def read_int32 (data : List Nat) (pos : Nat) : Option (Nat × Nat) :=
  match readBytes data pos 4 with
  | some ([b0, b1, b2, b3], p) => some (b0 + 256 * b1 + 65536 * b2 + 16777216 * b3, p)
  | _ => none

/-- `Srf2Png._read_p_string`: u32 length then that many payload bytes. -/
def read_p_string (data : List Nat) (pos : Nat) : Option (List Nat × Nat) :=
  match read_int32 data pos with
  | some (len, p) => readBytes data p len
  | none => none

/-- An in-memory image as a row list of pixels (the decoder's PIL buffers). -/
abbrev Image := List (List Pixel)

/-- A single-channel mask image ('L' mode). -/
abbrev MaskImage := List (List Nat)

/-- `Image.new`: rows of a default pixel. -/
def new_image (w h : Nat) (p0 : Pixel) : Image :=
  List.replicate h (List.replicate w p0)

/-- `Image.new('L', ...)`. -/
def new_mask (w h : Nat) : MaskImage :=
  List.replicate h (List.replicate w 0)

/-- `putpixel((x, y), p)` on a row-list image. -/
def put_pixel (img : Image) (x y : Nat) (p : Pixel) : Image :=
  img.set y ((img.getD y []).set x p)

/-- `putpixel((x, y), v)` on a mask image. -/
def put_mask_pixel (img : MaskImage) (x y v : Nat) : MaskImage :=
  img.set y ((img.getD y []).set x v)

/-- Everything `Srf2Png.convert` recovers from the stream: the declared
section count, the two 10-entry dimension arrays, and the decoded
image buffer(s). -/
structure DecodeResult where
  section_count : Nat
  widths : List Nat
  heights : List Nat
  rgb : Image
  mask : Option MaskImage
  deriving DecidableEq, Repr

/-- The sizing loop of `Srf2Png._read_section_sizes`: for each section skip
12 header bytes, read height and width, record them at index `i`, and skip
the rest of the record (`8 + 8 + w*h + 8 + w*h*2` bytes). -/
def read_sizes_loop (data : List Nat) :
    Nat → Nat → Nat → List Nat → List Nat → Option (List Nat × List Nat)
  | 0, _, _, ws, hs => some (ws, hs)
  | n + 1, i, pos, ws, hs =>
    match read_int16 data (pos + 12) with
    | none => none
    | some (h, p1) =>
      match read_int16 data p1 with
      | none => none
      | some (w, p2) =>
        read_sizes_loop data n (i + 1) (p2 + (8 + 8 + w * h + 8 + w * h * 2))
          (ws.set i w) (hs.set i h)

/-- The per-pixel double loop of `Srf2Png._read_image_section`, writing the
decoded alpha and colour of each pixel into the buffer(s). -/
def blit_section (alphaBuf rgbBuf : List Nat) (width height y_base : Nat)
    (separate_mask : Bool) (rgb : Image) (mask : Option MaskImage) :
    Image × Option MaskImage :=
  (List.range height).foldl
    (fun acc y =>
      (List.range width).foldl
        (fun acc x =>
          let pos := y * width + x
          let alpha := decode_alpha (alphaBuf.getD pos 0)
          let color := decode_color (rgbBuf.getD (pos * 2) 0) (rgbBuf.getD (pos * 2 + 1) 0)
          if separate_mask then
            (put_pixel acc.1 x (y_base + y) [color.1, color.2.1, color.2.2],
             acc.2.map fun m => put_mask_pixel m x (y_base + y) alpha)
          else
            (put_pixel acc.1 x (y_base + y) [color.1, color.2.1, color.2.2, alpha],
             acc.2))
        acc)
    (rgb, mask)

/-- `Srf2Png._read_image_section`: skip 12 header bytes, read height and
width, skip 2, read the stride, skip 4; then the alpha block (two skipped
u32 fields and `w*h` bytes) and the colour block (two skipped u32 fields
and `w*h*2` bytes); finally decode every pixel into the buffers. -/
def read_image_section (data : List Nat) (pos y_base : Nat) (separate_mask : Bool)
    (rgb : Image) (mask : Option MaskImage) :
    Option (Image × Option MaskImage × Nat) :=
  match read_int16 data (pos + 12) with
  | none => none
  | some (height, p1) =>
  match read_int16 data p1 with
  | none => none
  | some (width, p2) =>
  match read_int16 data (p2 + 2) with
  | none => none
  | some (_linebytes, p3) =>
  match readBytes data (p3 + 4 + 4 + 4) (width * height) with
  | none => none
  | some (alphaBuf, p4) =>
  match readBytes data (p4 + 4 + 4) (width * height * 2) with
  | none => none
  | some (rgbBuf, p5) =>
    let (rgb, mask) := blit_section alphaBuf rgbBuf width height y_base separate_mask rgb mask
    some (rgb, mask, p5)

/-- The per-section loop of `Srf2Png._process_srf_file`, threading the
cursor and the running vertical offset. -/
def read_sections_loop (data : List Nat) (separate_mask : Bool) (heights : List Nat) :
    Nat → Nat → Nat → Nat → Image → Option MaskImage →
    Option (Image × Option MaskImage)
  | 0, _, _, _, rgb, mask => some (rgb, mask)
  | n + 1, i, pos, y, rgb, mask =>
    match read_image_section data pos y separate_mask rgb mask with
    | none => none
    | some (rgb, mask, pos') =>
      read_sections_loop data separate_mask heights n (i + 1) pos' (y + heights.getD i 0) rgb mask

/-- The preamble of `Srf2Png._process_srf_file`: the 16 magic bytes, the
two skipped markers, the section count, the skipped tag and `P"578"`, the
skipped tag and version string, the skipped tag and product string.
Returns the declared section count and the cursor after the preamble. -/
def parse_preamble (data : List Nat) : Option (Nat × Nat) :=
  match readBytes data 0 16 with
  | none => none
  | some (fid, pos) =>
    if fid ≠ file_id then none else
    match read_int32 data (pos + 8) with
    | none => none
    | some (count, p1) =>
      match read_p_string data (p1 + 4 + 7 + 4) with
      | none => none
      | some (_version, p2) =>
        match read_p_string data (p2 + 4) with
        | none => none
        | some (_product, p3) => some (count, p3)

/-- The tail of `Srf2Png._process_srf_file` once the sizing pre-pass has
produced the dimension arrays: compute the composite size (`max` of widths
by `sum` of heights), allocate the buffer(s), decode every section in
order from the preserved cursor, and collect the results. -/
def decode_with_sizes (data : List Nat) (separate_mask : Bool) (count pos : Nat)
    (ws hs : List Nat) : Option DecodeResult :=
  let full_w := if 0 < count then (ws.take count).foldl max 0 else 0
  let full_h := (hs.take count).foldl (· + ·) 0
  let rgb : Image :=
    if separate_mask then new_image full_w full_h [0, 0, 0]
    else new_image full_w full_h [0, 0, 0, 0]
  let mask : Option MaskImage :=
    if separate_mask then some (new_mask full_w full_h) else none
  match read_sections_loop data separate_mask hs count 0 pos 0 rgb mask with
  | none => none
  | some (rgb, mask) => some ⟨count, ws, hs, rgb, mask⟩

/-- `Srf2Png._process_srf_file`: parse the preamble, reject more than 9
sections, run the sizing pre-pass from the preserved cursor, then decode
every section and return everything the conversion recovers. -/
def process_srf_file (data : List Nat) (separate_mask : Bool) : Option DecodeResult :=
  match parse_preamble data with
  | none => none
  | some (count, pos) =>
    if 9 < count then none else
    match read_sizes_loop data count 0 pos (List.replicate 10 0) (List.replicate 10 0) with
    | none => none
    | some (ws, hs) => decode_with_sizes data separate_mask count pos ws hs

/-- A 55-byte stream declaring 0 sections: the magic followed by zero
markers, a zero section count, and two empty length-prefixed strings. -/
def czero_stream : List Nat := file_id ++ List.replicate 39 0

/-- The synthetic one-section 2×2 all-white image (3-channel tuples, so the
encoder's default alpha 255 applies — "no mask"). -/
def white2x2 : Nat → Nat → Pixel := fun _ _ => [255, 255, 255]

/-- The bytes the little-endian loop emits for `k` rounds on `v`. -/
def leBytes : Nat → Nat → List Nat
  | 0, _ => []
  | k + 1, v => (v &&& 255) :: leBytes k (v >>> 8)

/-- The 24 bytes `write_section_header` emits, field by field. -/
def section_header_bytes (w h : Nat) : List Nat :=
  leBytes 4 0 ++ leBytes 4 16 ++ leBytes 4 0 ++ leBytes 2 h ++ leBytes 2 w ++
    leBytes 2 2064 ++ leBytes 2 (w * 2) ++ leBytes 4 0

/-- A writer that appends a fixed byte list and accumulates its sum. -/
def WriterEq (f : EncState → EncState) (bs : List Nat) : Prop :=
  ∀ s, f s = ⟨s.out ++ bs, s.checksum + bs.sum⟩

/-- A writer that appends some byte list and accumulates its sum. -/
def IsWriter (f : EncState → EncState) : Prop :=
  ∃ bs, WriterEq f bs

theorem leBytes_length : ∀ (k v : Nat), (leBytes k v).length = k
  | 0, _ => rfl
  | k + 1, v => by simp [leBytes, leBytes_length k]

theorem write_bytes_le_eq : ∀ (k v : Nat) (s : EncState),
    write_bytes_le s k v = ⟨s.out ++ leBytes k v, s.checksum + (leBytes k v).sum⟩
  | 0, v, s => by simp [write_bytes_le, leBytes]
  | k + 1, v, s => by
    simp only [write_bytes_le, leBytes, emit, write_bytes_le_eq k]
    simp [Nat.add_assoc]

theorem add_bytes_to_checksum_eq : ∀ (bs : List Nat) (s : EncState),
    add_bytes_to_checksum s bs = ⟨s.out, s.checksum + bs.sum⟩
  | [], s => by simp [add_bytes_to_checksum]
  | b :: rest, s => by
    simp only [add_bytes_to_checksum, add_bytes_to_checksum_eq rest]
    simp [Nat.add_assoc]

theorem writerEq_comp {f g : EncState → EncState} {bs cs : List Nat}
    (hf : WriterEq f bs) (hg : WriterEq g cs) :
    WriterEq (fun s => g (f s)) (bs ++ cs) := by
  intro s
  show g (f s) = _
  rw [hg (f s), hf s]
  simp [Nat.add_assoc]

theorem isWriter_comp {f g : EncState → EncState}
    (hf : IsWriter f) (hg : IsWriter g) : IsWriter (fun s => g (f s)) := by
  obtain ⟨bs, hf⟩ := hf
  obtain ⟨cs, hg⟩ := hg
  exact ⟨bs ++ cs, writerEq_comp hf hg⟩

theorem isWriter_id : IsWriter (fun s => s) :=
  ⟨[], fun s => by simp⟩

theorem isWriter_foldl {α : Type} (l : List α) (step : EncState → α → EncState)
    (h : ∀ x ∈ l, IsWriter (fun s => step s x)) :
    IsWriter (fun s => l.foldl step s) := by
  induction l with
  | nil => exact isWriter_id
  | cons a l ih =>
    have ha := h a (by simp)
    have hl := ih (fun x hx => h x (by simp [hx]))
    obtain ⟨bs, ha⟩ := ha
    obtain ⟨cs, hl⟩ := hl
    exact ⟨bs ++ cs, writerEq_comp ha hl⟩

theorem writerEq_write_int32 (v : Nat) :
    WriterEq (fun s => write_int32 s v) (leBytes 4 v) :=
  fun s => write_bytes_le_eq 4 v s

theorem writerEq_write_int16 (v : Nat) :
    WriterEq (fun s => write_int16 s v) (leBytes 2 v) :=
  fun s => write_bytes_le_eq 2 v s

theorem writerEq_emit (b : Nat) : WriterEq (fun s => emit s b) [b] :=
  fun s => by simp [emit]

theorem write_p_string_eq (t : String) (s : EncState) :
    write_p_string s t = ⟨s.out ++ (leBytes 4 t.length ++ strBytes t),
      s.checksum + (leBytes 4 t.length ++ strBytes t).sum⟩ := by
  simp only [write_p_string, write_int32, writeRaw, add_bytes_to_checksum_eq,
    write_bytes_le_eq]
  simp [Nat.add_assoc]

theorem writerEq_write_p_string (t : String) :
    WriterEq (fun s => write_p_string s t) (leBytes 4 t.length ++ strBytes t) :=
  fun s => write_p_string_eq t s

theorem isWriter_write_srf_header (c : Nat) :
    IsWriter (fun s => write_srf_header s c) := by
  refine ⟨file_id ++ leBytes 4 4 ++ leBytes 4 4 ++ leBytes 4 c ++ leBytes 4 5 ++
    (leBytes 4 ("578".length) ++ strBytes "578") ++ leBytes 4 6 ++
    (leBytes 4 ("1.00".length) ++ strBytes "1.00") ++ leBytes 4 7 ++
    (leBytes 4 ("006-D0578-XX".length) ++ strBytes "006-D0578-XX"), fun s => ?_⟩
  simp only [write_srf_header, writeRaw, add_bytes_to_checksum_eq,
    write_bytes_le_eq, write_p_string_eq, write_int32]
  simp [Nat.add_assoc]

theorem write_section_header_eq (w h : Nat) (s : EncState) :
    write_section_header s w h = ⟨s.out ++ section_header_bytes w h,
      s.checksum + (section_header_bytes w h).sum⟩ := by
  simp only [write_section_header, write_int32, write_int16, write_bytes_le_eq,
    section_header_bytes]
  simp [Nat.add_assoc]

theorem writerEq_write_section_header (w h : Nat) :
    WriterEq (fun s => write_section_header s w h) (section_header_bytes w h) :=
  fun s => write_section_header_eq w h s

theorem isWriter_write_alpha_plane (mask : Option (Nat → Nat → Nat))
    (img : Nat → Nat → Pixel) (w h y_base : Nat) :
    IsWriter (fun s => write_alpha_plane s mask img w h y_base) := by
  refine isWriter_foldl _ _ (fun y _ => ?_)
  refine isWriter_foldl _ _ (fun x _ => ?_)
  exact ⟨_, writerEq_emit _⟩

theorem isWriter_write_color_plane (img : Nat → Nat → Pixel) (w h y_base : Nat) :
    IsWriter (fun s => write_color_plane s img w h y_base) := by
  refine isWriter_foldl _ _ (fun y _ => ?_)
  refine isWriter_foldl _ _ (fun x _ => ?_)
  exact ⟨_, writerEq_write_int16 _⟩

theorem isWriter_write_image_section (mask : Option (Nat → Nat → Nat))
    (img : Nat → Nat → Pixel) (w h y_base : Nat) :
    IsWriter (fun s => write_image_section s mask img w h y_base) := by
  have h1 : IsWriter (fun s => write_section_header s w h) :=
    ⟨_, writerEq_write_section_header w h⟩
  have h2 := isWriter_comp h1 ⟨_, writerEq_write_int32 11⟩
  have h3 := isWriter_comp h2 ⟨_, writerEq_write_int32 (w * h)⟩
  have h4 := isWriter_comp h3 (isWriter_write_alpha_plane mask img w h y_base)
  have h5 := isWriter_comp h4 ⟨_, writerEq_write_int32 1⟩
  have h6 := isWriter_comp h5 ⟨_, writerEq_write_int32 (w * h * 2)⟩
  have h7 := isWriter_comp h6 (isWriter_write_color_plane img w h y_base)
  exact h7

theorem isWriter_write_sections (mask : Option (Nat → Nat → Nat))
    (img : Nat → Nat → Pixel) :
    ∀ (sections : List (Nat × Nat)) (y : Nat),
      IsWriter (fun s => write_sections mask img s sections y)
  | [], _ => isWriter_id
  | (w, h) :: rest, y => by
    have h1 := isWriter_write_image_section mask img w h y
    have h2 := isWriter_write_sections mask img rest (y + h)
    exact isWriter_comp h1 h2

theorem write_padding_eq : ∀ (n : Nat) (s : EncState),
    write_padding s n = ⟨s.out ++ List.replicate n 255,
      s.checksum + (List.replicate n 255).sum⟩
  | 0, s => by simp [write_padding]
  | n + 1, s => by
    simp only [write_padding]
    rw [write_padding_eq n (emit s 255)]
    simp [emit, List.replicate_succ, Nat.add_assoc]

theorem write_alpha_plane_ex (mask : Option (Nat → Nat → Nat)) (img : Nat → Nat → Pixel)
    (w h y_base : Nat) :
    ∃ bs : List Nat, ∀ s, write_alpha_plane s mask img w h y_base =
      ⟨s.out ++ bs, s.checksum + bs.sum⟩ :=
  isWriter_write_alpha_plane mask img w h y_base

theorem write_color_plane_ex (img : Nat → Nat → Pixel) (w h y_base : Nat) :
    ∃ bs : List Nat, ∀ s, write_color_plane s img w h y_base =
      ⟨s.out ++ bs, s.checksum + bs.sum⟩ :=
  isWriter_write_color_plane img w h y_base

theorem write_srf_header_ex (c : Nat) :
    ∃ bs : List Nat, ∀ s, write_srf_header s c = ⟨s.out ++ bs, s.checksum + bs.sum⟩ :=
  isWriter_write_srf_header c

theorem write_image_section_ex (mask : Option (Nat → Nat → Nat)) (img : Nat → Nat → Pixel)
    (w h y_base : Nat) :
    ∃ bs : List Nat, ∀ s, write_image_section s mask img w h y_base =
      ⟨s.out ++ bs, s.checksum + bs.sum⟩ :=
  isWriter_write_image_section mask img w h y_base

theorem write_sections_ex (mask : Option (Nat → Nat → Nat)) (img : Nat → Nat → Pixel)
    (sections : List (Nat × Nat)) (y : Nat) :
    ∃ bs : List Nat, ∀ s, write_sections mask img s sections y =
      ⟨s.out ++ bs, s.checksum + bs.sum⟩ :=
  isWriter_write_sections mask img sections y

/-- The body of the stream satisfies the running-checksum invariant: the
counter equals the sum of every byte written so far. -/
theorem write_srf_body_checksum (sections : List (Nat × Nat))
    (mask : Option (Nat → Nat → Nat)) (img : Nat → Nat → Pixel) :
    (write_srf_body sections mask img).checksum =
      (write_srf_body sections mask img).out.sum := by
  obtain ⟨hb, hhdr⟩ := write_srf_header_ex sections.length
  obtain ⟨sb, hsec⟩ := write_sections_ex mask img sections 0
  simp only [write_srf_body, hhdr, hsec]
  simp

/-- The emitted stream in split form: body bytes, `0xff` padding, and one
final checkbyte computed from the padded checksum. -/
theorem write_srf_file_split (sections : List (Nat × Nat))
    (mask : Option (Nat → Nat → Nat)) (img : Nat → Nat → Pixel) :
    write_srf_file sections mask img =
      ((write_srf_body sections mask img).out ++
        List.replicate (255 - (write_srf_body sections mask img).out.length % 256) 255) ++
      [(256 - (((write_srf_body sections mask img).checksum +
          (List.replicate (255 - (write_srf_body sections mask img).out.length % 256) 255).sum) &&& 255)) &&& 255] := by
  simp only [write_srf_file, write_srf_footer, write_padding_eq, writeRaw]

/- ---------------------------------------------------------------------
Frame property of the decoder: every read it performs on a stream it
accepts lies inside that stream, so extending the stream with extra bytes
changes nothing.  This is what makes the trailing checkbyte invisible to
the decoder.
--------------------------------------------------------------------- -/

theorem frame_readBytes {data suf : List Nat} {pos n : Nat} {r : List Nat × Nat}
    (h : readBytes data pos n = some r) :
    readBytes (data ++ suf) pos n = some r := by
  simp only [readBytes] at h ⊢
  by_cases hle : pos + n ≤ data.length
  · rw [if_pos hle] at h
    rw [if_pos (by simp; omega)]
    rw [List.drop_append_of_le_length (by omega),
      List.take_append_of_le_length (by simp; omega)]
    exact h
  · rw [if_neg hle] at h
    exact absurd h (by simp)

theorem frame_read_int16 {data suf : List Nat} {pos : Nat} {r : Nat × Nat}
    (h : read_int16 data pos = some r) :
    read_int16 (data ++ suf) pos = some r := by
  simp only [read_int16] at h ⊢
  cases hrb : readBytes data pos 2 with
  | none => rw [hrb] at h; simp at h
  | some v =>
    rw [frame_readBytes hrb]
    rw [hrb] at h
    exact h

theorem frame_read_int32 {data suf : List Nat} {pos : Nat} {r : Nat × Nat}
    (h : read_int32 data pos = some r) :
    read_int32 (data ++ suf) pos = some r := by
  simp only [read_int32] at h ⊢
  cases hrb : readBytes data pos 4 with
  | none => rw [hrb] at h; simp at h
  | some v =>
    rw [frame_readBytes hrb]
    rw [hrb] at h
    exact h

theorem frame_read_p_string {data suf : List Nat} {pos : Nat} {r : List Nat × Nat}
    (h : read_p_string data pos = some r) :
    read_p_string (data ++ suf) pos = some r := by
  simp only [read_p_string] at h ⊢
  cases h32 : read_int32 data pos with
  | none => rw [h32] at h; simp at h
  | some v =>
    rw [frame_read_int32 h32]
    rw [h32] at h
    exact frame_readBytes h

theorem frame_read_sizes_loop {data suf : List Nat} : ∀ {n i pos : Nat}
    {ws hs : List Nat} {r : List Nat × List Nat},
    read_sizes_loop data n i pos ws hs = some r →
    read_sizes_loop (data ++ suf) n i pos ws hs = some r
  | 0, _, _, _, _, _, h => h
  | n + 1, i, pos, ws, hs, r, h => by
    simp only [read_sizes_loop] at h ⊢
    cases h1 : read_int16 data (pos + 12) with
    | none => simp only [h1] at h; exact Option.noConfusion h
    | some v1 =>
      obtain ⟨hh, p1⟩ := v1
      simp only [frame_read_int16 h1]
      simp only [h1] at h
      cases h2 : read_int16 data p1 with
      | none => simp only [h2] at h; exact Option.noConfusion h
      | some v2 =>
        obtain ⟨ww, p2⟩ := v2
        simp only [frame_read_int16 h2]
        simp only [h2] at h
        exact frame_read_sizes_loop h

theorem frame_read_image_section {data suf : List Nat} {pos y_base : Nat}
    {sm : Bool} {rgb : Image} {mask : Option MaskImage}
    {r : Image × Option MaskImage × Nat}
    (h : read_image_section data pos y_base sm rgb mask = some r) :
    read_image_section (data ++ suf) pos y_base sm rgb mask = some r := by
  simp only [read_image_section] at h ⊢
  cases h1 : read_int16 data (pos + 12) with
  | none => simp only [h1] at h; exact Option.noConfusion h
  | some v1 =>
    obtain ⟨hh, p1⟩ := v1
    simp only [frame_read_int16 h1]
    simp only [h1] at h
    cases h2 : read_int16 data p1 with
    | none => simp only [h2] at h; exact Option.noConfusion h
    | some v2 =>
      obtain ⟨ww, p2⟩ := v2
      simp only [frame_read_int16 h2]
      simp only [h2] at h
      cases h3 : read_int16 data (p2 + 2) with
      | none => simp only [h3] at h; exact Option.noConfusion h
      | some v3 =>
        obtain ⟨lb, p3⟩ := v3
        simp only [frame_read_int16 h3]
        simp only [h3] at h
        cases h4 : readBytes data (p3 + 4 + 4 + 4) (ww * hh) with
        | none => simp only [h4] at h; exact Option.noConfusion h
        | some v4 =>
          obtain ⟨ab, p4⟩ := v4
          simp only [frame_readBytes h4]
          simp only [h4] at h
          cases h5 : readBytes data (p4 + 4 + 4) (ww * hh * 2) with
          | none => simp only [h5] at h; exact Option.noConfusion h
          | some v5 =>
            obtain ⟨rb, p5⟩ := v5
            simp only [frame_readBytes h5]
            simp only [h5] at h
            exact h

theorem frame_read_sections_loop {data suf : List Nat} {sm : Bool}
    {heights : List Nat} : ∀ {n i pos y : Nat} {rgb : Image}
    {mask : Option MaskImage} {r : Image × Option MaskImage},
    read_sections_loop data sm heights n i pos y rgb mask = some r →
    read_sections_loop (data ++ suf) sm heights n i pos y rgb mask = some r
  | 0, _, _, _, _, _, _, h => h
  | n + 1, i, pos, y, rgb, mask, r, h => by
    simp only [read_sections_loop] at h ⊢
    cases h1 : read_image_section data pos y sm rgb mask with
    | none => simp only [h1] at h; exact Option.noConfusion h
    | some v1 =>
      obtain ⟨rgb2, v1⟩ := v1
      obtain ⟨mask2, pos2⟩ := v1
      simp only [frame_read_image_section h1]
      simp only [h1] at h
      exact frame_read_sections_loop h

theorem frame_parse_preamble {data suf : List Nat} {r : Nat × Nat}
    (h : parse_preamble data = some r) :
    parse_preamble (data ++ suf) = some r := by
  simp only [parse_preamble] at h ⊢
  cases h0 : readBytes data 0 16 with
  | none => simp only [h0] at h; exact Option.noConfusion h
  | some v0 =>
    obtain ⟨fid, pos⟩ := v0
    simp only [frame_readBytes h0]
    simp only [h0] at h
    by_cases hid : fid ≠ file_id
    · rw [if_pos hid] at h
      simp at h
    · rw [if_neg hid] at h ⊢
      cases h1 : read_int32 data (pos + 8) with
      | none => simp only [h1] at h; exact Option.noConfusion h
      | some v1 =>
        obtain ⟨count, p1⟩ := v1
        simp only [frame_read_int32 h1]
        simp only [h1] at h
        cases h2 : read_p_string data (p1 + 4 + 7 + 4) with
        | none => simp only [h2] at h; exact Option.noConfusion h
        | some v2 =>
          obtain ⟨ver, p2⟩ := v2
          simp only [frame_read_p_string h2]
          simp only [h2] at h
          cases h3 : read_p_string data (p2 + 4) with
          | none => simp only [h3] at h; exact Option.noConfusion h
          | some v3 =>
            obtain ⟨prod2, p3⟩ := v3
            simp only [frame_read_p_string h3]
            simp only [h3] at h
            exact h

theorem frame_decode_with_sizes {data suf : List Nat} {sm : Bool}
    {count pos : Nat} {ws hs : List Nat} {r : DecodeResult}
    (h : decode_with_sizes data sm count pos ws hs = some r) :
    decode_with_sizes (data ++ suf) sm count pos ws hs = some r := by
  simp only [decode_with_sizes] at h ⊢
  cases h1 : read_sections_loop data sm hs count 0 pos 0
      (if sm then new_image (if 0 < count then (ws.take count).foldl max 0 else 0)
        ((hs.take count).foldl (· + ·) 0) [0, 0, 0]
       else new_image (if 0 < count then (ws.take count).foldl max 0 else 0)
        ((hs.take count).foldl (· + ·) 0) [0, 0, 0, 0])
      (if sm then some (new_mask (if 0 < count then (ws.take count).foldl max 0 else 0)
        ((hs.take count).foldl (· + ·) 0)) else none) with
  | none => simp only [h1] at h; exact Option.noConfusion h
  | some v1 =>
    obtain ⟨rgb2, mask2⟩ := v1
    simp only [frame_read_sections_loop h1]
    simp only [h1] at h
    exact h

theorem frame_process_srf_file {data suf : List Nat} {sm : Bool} {r : DecodeResult}
    (h : process_srf_file data sm = some r) :
    process_srf_file (data ++ suf) sm = some r := by
  simp only [process_srf_file] at h ⊢
  cases h0 : parse_preamble data with
  | none => simp only [h0] at h; exact Option.noConfusion h
  | some v0 =>
    obtain ⟨count, pos⟩ := v0
    simp only [frame_parse_preamble h0]
    simp only [h0] at h
    by_cases hc : 9 < count
    · rw [if_pos hc] at h
      simp at h
    · rw [if_neg hc] at h ⊢
      cases h1 : read_sizes_loop data count 0 pos (List.replicate 10 0) (List.replicate 10 0) with
      | none => simp only [h1] at h; exact Option.noConfusion h
      | some v1 =>
        obtain ⟨ws, hs⟩ := v1
        simp only [frame_read_sizes_loop h1]
        simp only [h1] at h
        exact frame_decode_with_sizes h

end Srf

open Srf

/-- Every `x &&& 255` in the source is reduction mod 256. -/
theorem and255_eq_mod (x : Nat) : x &&& 255 = x % 256 :=
  Nat.and_pow_two_sub_one_eq_mod x 8

/-- C1: the encoder's stream ends in exactly one checkbyte, computed as
`(256 - (sum & 255)) & 255` over the sum of every preceding byte (magic,
preamble, strings, section headers, alpha and colour bytes, padding) and
never over itself; hence `(S + checkbyte) % 256 == 0`. -/
theorem c1_checksum_law : ∀ (sections : List (Nat × Nat))
    (mask : Option (Nat → Nat → Nat)) (img : Nat → Nat → Pixel),
    write_srf_file sections mask img =
      (write_srf_file sections mask img).dropLast ++
        [(256 - ((write_srf_file sections mask img).dropLast.sum &&& 255)) &&& 255] ∧
    ((write_srf_file sections mask img).dropLast.sum +
        ((256 - ((write_srf_file sections mask img).dropLast.sum &&& 255)) &&& 255)) % 256 = 0 := by
  intro sections mask img
  have hsplit := write_srf_file_split sections mask img
  have hinv := write_srf_body_checksum sections mask img
  have hdrop : (write_srf_file sections mask img).dropLast =
      (write_srf_body sections mask img).out ++
        List.replicate (255 - (write_srf_body sections mask img).out.length % 256) 255 := by
    rw [hsplit]
    simp
  have hsum : (write_srf_file sections mask img).dropLast.sum =
      (write_srf_body sections mask img).checksum +
        (List.replicate (255 - (write_srf_body sections mask img).out.length % 256) 255).sum := by
    rw [hdrop, hinv]
    simp
  constructor
  · rw [hsum, hdrop, hsplit]
  · rw [and255_eq_mod, and255_eq_mod]
    omega

/-- C8: the padded stream length is `≡ 255 (mod 256)` before the single
checkbyte and a multiple of 256 including it; the `0xff` padding keeps the
pre-checkbyte length within 256 bytes of the body, which makes it the
smallest length of the form `k·256 − 1` at or above the body length. -/
theorem c8_padding_determinism : ∀ (sections : List (Nat × Nat))
    (mask : Option (Nat → Nat → Nat)) (img : Nat → Nat → Pixel),
    (write_srf_file sections mask img).length % 256 = 0 ∧
    (write_srf_file sections mask img).dropLast =
      (write_srf_body sections mask img).out ++
        List.replicate (255 - (write_srf_body sections mask img).out.length % 256) 255 ∧
    (write_srf_file sections mask img).dropLast.length % 256 = 255 ∧
    (write_srf_body sections mask img).out.length ≤
      (write_srf_file sections mask img).dropLast.length ∧
    (write_srf_file sections mask img).dropLast.length <
      (write_srf_body sections mask img).out.length + 256 := by
  intro sections mask img
  have hsplit := write_srf_file_split sections mask img
  have hdrop : (write_srf_file sections mask img).dropLast =
      (write_srf_body sections mask img).out ++
        List.replicate (255 - (write_srf_body sections mask img).out.length % 256) 255 := by
    rw [hsplit]
    simp
  have hlen : (write_srf_file sections mask img).length =
      (write_srf_body sections mask img).out.length +
        (255 - (write_srf_body sections mask img).out.length % 256) + 1 := by
    rw [hsplit]
    simp
    omega
  have hdlen : (write_srf_file sections mask img).dropLast.length =
      (write_srf_body sections mask img).out.length +
        (255 - (write_srf_body sections mask img).out.length % 256) := by
    rw [hdrop]
    simp
  refine ⟨?_, hdrop, ?_, ?_, ?_⟩ <;> omega

/-- C6, counterexample: the section header the encoder emits is not 16
bytes — for a 1×1 section it is 24 bytes long. -/
theorem c6_counterexample :
    ¬((write_section_header ⟨[], 0⟩ 1 1).out.length = 16) := by
  decide

/-- C6, amended: each encoded section record begins with a 24-byte header
consisting, in order, of three constant u32 tags (0, 16, 0), height (u16),
width (u16), the constant tag 2064 (u16), stride = width·2 (u16), and a
constant u32 terminator 0 — all little-endian, and every header byte is
added to the checksum. -/
theorem c6_section_header_layout : ∀ (s : EncState) (mask : Option (Nat → Nat → Nat))
    (img : Nat → Nat → Pixel) (w h y_base : Nat),
    (write_section_header s w h).out = s.out ++ section_header_bytes w h ∧
    section_header_bytes w h =
      leBytes 4 0 ++ leBytes 4 16 ++ leBytes 4 0 ++ leBytes 2 h ++ leBytes 2 w ++
        leBytes 2 2064 ++ leBytes 2 (w * 2) ++ leBytes 4 0 ∧
    (section_header_bytes w h).length = 24 ∧
    (write_section_header s w h).checksum = s.checksum + (section_header_bytes w h).sum ∧
    ∃ rest, (write_image_section s mask img w h y_base).out =
      s.out ++ section_header_bytes w h ++ rest := by
  intro s mask img w h y_base
  refine ⟨by rw [write_section_header_eq], rfl, ?_, by rw [write_section_header_eq], ?_⟩
  · simp [section_header_bytes, leBytes_length]
  · obtain ⟨ab, hab⟩ := write_alpha_plane_ex mask img w h y_base
    obtain ⟨cb, hcb⟩ := write_color_plane_ex img w h y_base
    refine ⟨leBytes 4 11 ++ leBytes 4 (w * h) ++ ab ++ leBytes 4 1 ++
      leBytes 4 (w * h * 2) ++ cb, ?_⟩
    show (write_color_plane (write_int32 (write_int32 (write_alpha_plane
      (write_int32 (write_int32 (write_section_header s w h) 11) (w * h))
      mask img w h y_base) 1) (w * h * 2)) img w h y_base).out = _
    rw [hcb, write_int32, write_bytes_le_eq, write_int32, write_bytes_le_eq, hab,
      write_int32, write_bytes_le_eq, write_int32, write_bytes_le_eq,
      write_section_header_eq]
    simp

/-- C3, evaluation at the failing input (0, 4, 0): the encoder keeps only
the top five bits of green (`>> 19`/`>> 11`/`>> 3` on the packed word), so
the round trip returns (0, 0, 0) where the claimed 5/6/5 law gives
(0 &&& 0xF8, 4 &&& 0xFC, 0 &&& 0xF8) = (0, 4, 0). -/
theorem c3_green_bug_eval :
    color_roundtrip 0 4 0 = (0, 0, 0) ∧
    (0 &&& 0xF8, 4 &&& 0xFC, 0 &&& 0xF8) = (0, 4, 0) ∧
    color_roundtrip 0 4 0 ≠ (0 &&& 0xF8, 4 &&& 0xFC, 0 &&& 0xF8) := by
  decide

/-- C7, counterexample: the claim `DecodeAlpha(EncodeAlpha(255)) == 255 ∧
DecodeAlpha(EncodeAlpha(0)) == 255` is false on the code — encoding alpha 0
gives the remapped byte 128, which decodes back to 0, not 255. -/
theorem c7_counterexample :
    ¬(decode_alpha (encode_alpha 255) = 255 ∧ decode_alpha (encode_alpha 0) = 255) := by
  decide

/-- C7, amended: the alpha pair is exact at both extremes, but input 0
decodes back to 0 (not 255): `DecodeAlpha(EncodeAlpha(255)) = 255` and
`DecodeAlpha(EncodeAlpha(0)) = 0`. -/
theorem c7_alpha_extremes :
    decode_alpha (encode_alpha 255) = 255 ∧ decode_alpha (encode_alpha 0) = 0 := by
  decide

set_option maxRecDepth 4096 in
/-- C10: for every alpha in [0, 255] the round trip differs from the input
by at most 1; it equals `a` for odd `a ≥ 3`, `a + 1` for even `a ≥ 2`, and
0 for `a ∈ {0, 1}`. -/
theorem c10_alpha_roundtrip : ∀ a : Nat, a < 256 →
    (decode_alpha (encode_alpha a) ≤ a + 1 ∧ a ≤ decode_alpha (encode_alpha a) + 1) ∧
    (a % 2 = 1 → 3 ≤ a → decode_alpha (encode_alpha a) = a) ∧
    (a % 2 = 0 → 2 ≤ a → decode_alpha (encode_alpha a) = a + 1) ∧
    (a ≤ 1 → decode_alpha (encode_alpha a) = 0) := by
  decide

/-- The validation loop returns `some` of the scan over the first `n`
entries from index `i`, whenever those indices are in range. -/
theorem validate_loop_eq : ∀ (n : Nat) (ws hs : List Nat) (i : Nat),
    i + n ≤ ws.length → i + n ≤ hs.length →
    validate_loop ws hs i n =
      some (decide (∀ j, j < n → hs.getD (i + j) 0 ≠ 0 ∧ ws.getD (i + j) 0 ≠ 0))
  | 0, ws, hs, i, _, _ => by simp [validate_loop]
  | n + 1, ws, hs, i, hws, hhs => by
    have hi1 : i < hs.length := by omega
    have hi2 : i < ws.length := by omega
    have hh : hs.get? i = some (hs.getD i 0) := by
      simp [List.getD_eq_getElem?_getD, List.get?_eq_getElem?, List.getElem?_eq_getElem hi1]
    have hw : ws.get? i = some (ws.getD i 0) := by
      simp [List.getD_eq_getElem?_getD, List.get?_eq_getElem?, List.getElem?_eq_getElem hi2]
    simp only [validate_loop, hh, hw]
    by_cases hz : hs.getD i 0 = 0 ∨ ws.getD i 0 = 0
    · rw [if_pos hz]
      have hfalse : ¬(∀ j, j < n + 1 → hs.getD (i + j) 0 ≠ 0 ∧ ws.getD (i + j) 0 ≠ 0) := by
        intro hall
        have h0 := hall 0 (Nat.succ_pos n)
        simp only [Nat.add_zero] at h0
        rcases hz with hz | hz
        · exact h0.1 hz
        · exact h0.2 hz
      rw [decide_eq_false hfalse]
    · rw [if_neg hz]
      rw [validate_loop_eq n ws hs (i + 1) (by omega) (by omega)]
      push_neg at hz
      have hiff : (∀ j, j < n → hs.getD (i + 1 + j) 0 ≠ 0 ∧ ws.getD (i + 1 + j) 0 ≠ 0) ↔
          (∀ j, j < n + 1 → hs.getD (i + j) 0 ≠ 0 ∧ ws.getD (i + j) 0 ≠ 0) := by
        constructor
        · intro hA j hj
          match j with
          | 0 => simpa using hz
          | j' + 1 =>
            have hv := hA j' (by omega)
            have heq : i + 1 + j' = i + (j' + 1) := by omega
            rwa [heq] at hv
        · intro hB j hj
          have hv := hB (j + 1) (by omega)
          have heq : i + (j + 1) = i + 1 + j := by omega
          rwa [heq] at hv
      rw [decide_eq_decide.mpr hiff]

/-- C5, counterexample: a converter state declaring 10 sections with all
ten dimensions nonzero passes `_validate_sections` — no upper bound of 9
is enforced, so encoding 10 such sections raises no ValidationError here. -/
theorem c5_counterexample :
    validate_sections 10 (List.replicate 10 1) (List.replicate 10 1) = some true := by
  decide

/-- C5, amended: `_validate_sections` accepts exactly the states with a
nonzero section count whose first `count` widths and heights are all
nonzero (so 0 sections are rejected), and it enforces no upper bound of 9
on the count. -/
theorem c5_validate_characterization : ∀ (count : Nat) (ws hs : List Nat),
    count ≤ ws.length → count ≤ hs.length →
    validate_sections count ws hs =
      some (decide (count ≠ 0 ∧ ∀ i, i < count → hs.getD i 0 ≠ 0 ∧ ws.getD i 0 ≠ 0)) := by
  intro count ws hs h1 h2
  by_cases hc : count = 0
  · subst hc
    simp [validate_sections]
  · rw [validate_sections, if_neg hc, validate_loop_eq count ws hs 0 (by omega) (by omega)]
    have hiff : (∀ j, j < count → hs.getD (0 + j) 0 ≠ 0 ∧ ws.getD (0 + j) 0 ≠ 0) ↔
        (count ≠ 0 ∧ ∀ i, i < count → hs.getD i 0 ≠ 0 ∧ ws.getD i 0 ≠ 0) := by
      simp only [Nat.zero_add]
      exact ⟨fun h => ⟨hc, h⟩, fun h => h.2⟩
    rw [decide_eq_decide.mpr hiff]

/-- Witness for the amended C5 at count 10 with all dimensions 1. -/
theorem c5_validate_characterization_witness :
    validate_sections 10 (List.replicate 10 2) (List.replicate 10 2) =
      some (decide ((10 : Nat) ≠ 0 ∧ ∀ i, i < 10 →
        (List.replicate 10 2).getD i 0 ≠ 0 ∧ (List.replicate 10 2).getD i 0 ≠ 0)) :=
  c5_validate_characterization 10 (List.replicate 10 2) (List.replicate 10 2)
    (by decide) (by decide)

set_option maxRecDepth 100000 in
/-- C2, evaluation at the failing input: the synthetic one-section 2×2
all-white image round-trips to section count 1, width 2, height 2 (the
geometry part of the claim holds), but every decoded pixel is
(248, 124, 248) — green 124 instead of the claimed `255 &&& 0xFC = 252`,
because of the encoder's green shift. -/
theorem c2_roundtrip_eval :
    process_srf_file (write_srf_file [(2, 2)] none white2x2) false =
      some ⟨1, [2, 0, 0, 0, 0, 0, 0, 0, 0, 0], [2, 0, 0, 0, 0, 0, 0, 0, 0, 0],
        [[[248, 124, 248, 255], [248, 124, 248, 255]],
         [[248, 124, 248, 255], [248, 124, 248, 255]]], none⟩ ∧
    (124 : Nat) ≠ 255 &&& 0xFC := by
  constructor
  · rfl
  · decide

/-- C4, counterexample: a stream declaring section count 0 (and otherwise
well-formed) is decoded successfully — the decoder has no `count == 0`
check, so the claim that it fails with a FormatError is false. -/
theorem c4_counterexample :
    parse_preamble czero_stream = some (0, 55) ∧
    (process_srf_file czero_stream false).isSome = true := by
  decide

/-- C4, amended: the decoder rejects a stream whose declared section count
exceeds 9, but accepts a declared count of 0 and returns an empty image
with no sections. -/
theorem c4_count_handling : ∀ (data : List Nat) (c p : Nat) (sm : Bool),
    parse_preamble data = some (c, p) →
    (9 < c → process_srf_file data sm = none) ∧
    (c = 0 → process_srf_file data sm =
      some ⟨0, List.replicate 10 0, List.replicate 10 0, [],
        if sm then some [] else none⟩) := by
  intro data c p sm hp
  constructor
  · intro hc
    simp [process_srf_file, hp, hc]
  · intro hc
    subst hc
    cases sm <;>
      simp [process_srf_file, decode_with_sizes, hp, read_sizes_loop,
        read_sections_loop, new_image, new_mask]

/-- Witness for the amended C4 on the concrete count-0 stream. -/
theorem c4_count_handling_witness :
    (9 < 0 → process_srf_file czero_stream false = none) ∧
    (0 = 0 → process_srf_file czero_stream false =
      some ⟨0, List.replicate 10 0, List.replicate 10 0, [],
        if false then some [] else none⟩) :=
  c4_count_handling czero_stream 0 55 false (by decide)

/-- Witness for C10 at the concrete input 4 (even, ≥ 2: decodes to 5). -/
theorem c10_alpha_roundtrip_witness :
    (4 : Nat) < 256 ∧
    ((decode_alpha (encode_alpha 4) ≤ 4 + 1 ∧ 4 ≤ decode_alpha (encode_alpha 4) + 1) ∧
     (4 % 2 = 1 → 3 ≤ 4 → decode_alpha (encode_alpha 4) = 4) ∧
     (4 % 2 = 0 → 2 ≤ 4 → decode_alpha (encode_alpha 4) = 4 + 1) ∧
     (4 ≤ 1 → decode_alpha (encode_alpha 4) = 0)) :=
  ⟨by decide, c10_alpha_roundtrip 4 (by decide)⟩

/-- C9: decode performs no checksum verification — for a stream whose body
(everything before the trailing checkbyte) already decodes successfully,
the value of the appended trailing byte is invisible: any two such streams
differing only in that byte decode to identical results (same images, same
recovered geometry). -/
theorem c9_no_checksum_verification : ∀ (pre : List Nat) (b1 b2 : Nat) (sm : Bool),
    (process_srf_file pre sm).isSome →
    process_srf_file (pre ++ [b1]) sm = process_srf_file (pre ++ [b2]) sm := by
  intro pre b1 b2 sm h
  obtain ⟨r, hr⟩ := Option.isSome_iff_exists.mp h
  rw [frame_process_srf_file hr, frame_process_srf_file hr]

/-- Witness for C9 on the concrete count-0 stream with two different
trailing bytes. -/
theorem c9_no_checksum_verification_witness :
    process_srf_file (czero_stream ++ [1]) false =
      process_srf_file (czero_stream ++ [2]) false :=
  c9_no_checksum_verification czero_stream 1 2 false (by decide)
